import Mathlib

/-!
Verification of the observability instrumentation layer and product CRUD
core of the testing-otlp-api service, shallowly embedded in Lean 4.

The embedding follows the Go source:
* `internal/infrastructure/http/server.go` (middleware part):
  `ActiveRequestsMiddleware`, `routeAwareWriter`, `incrementIfNeeded`,
  `ensureDecrement`;
* `internal/infrastructure/repository/memory`: `ProductRepository`
  (`Create`, `FindByID`, `FindAll`) over a Go map of product pointers,
  modelled with an explicit heap of product cells addressed by `Ref`;
* `internal/domain`: `Product`, `NewProduct`, `Product.Validate`;
* `internal/app/service`: `ProductService` use cases;
* `internal/app/dto`: `CreateProductRequest`, `ProductResponse`;
* `internal/infrastructure/http/response`: `JSON` / `Error` rendering;
* `internal/infrastructure/telemetry`: `NewTelemetry`, `NewNoOpTelemetry`,
  the `traceContextHandler` slog decorator, context route propagation;
* `internal/infrastructure/config`: `getEnvBool`, `LoadConfig`.

Go `float64` prices are modelled as `Rat` (the code only constructs,
compares and echoes prices), `time.Time` values as `Nat` clock readings
(each call of `time.Now()` is one reading supplied as a parameter), and
`uuid.New().String()` as a generated-identifier parameter.
-/

deriving instance DecidableEq for Except

/-! ## Request lifecycle tracker (ActiveRequestsMiddleware, server.go) -/

/-- Inbound request data captured by the middleware: `r.Method`,
`r.URL.Path` and `r.Host`. -/
structure Request where
  method : String
  urlPath : String
  host : String
deriving DecidableEq, Repr

/-- Attribute set attached to one `activeRequests.Add` call:
`http.request.method`, `http.route`, `server.address`. -/
structure Attrs where
  method : String
  route : String
  host : String
deriving DecidableEq, Repr

/-- One `activeRequests.Add(ctx, delta, attrs)` call made by the
middleware. -/
structure MetricEvent where
  delta : Int
  attrs : Attrs
deriving DecidableEq, Repr

/-- State of the chi route context as observed at one instant:
`none` models `chi.RouteContext(ctx) == nil`, `some p` models a route
context whose `RoutePattern()` returns `p` (possibly `""`). -/
abbrev RouteCtx := Option String

/-- Route-pattern extraction shared by `incrementIfNeeded` and
`ensureDecrement`: start from `r.URL.Path` and replace it with the chi
route pattern when the route context exists and the pattern is
non-empty. -/
def resolveRoutePattern (urlPath : String) (rctx : RouteCtx) : String :=
  match rctx with
  | none => urlPath
  | some pattern => if pattern = "" then urlPath else pattern

/-- Attribute set built for one `Add` call, from the request and the chi
route context observed at that instant. -/
def mkAttrs (req : Request) (rctx : RouteCtx) : Attrs :=
  { method := req.method
    route := resolveRoutePattern req.urlPath rctx
    host := req.host }

/-- Mutable flags of a `routeAwareWriter` (`incrementDone`,
`decrementDone`). -/
structure WriterState where
  incrementDone : Bool
  decrementDone : Bool
deriving DecidableEq, Repr

/-- Writer state at request entry: both flags false. -/
def WriterState.initial : WriterState := ⟨false, false⟩

/-- Model of `routeAwareWriter.incrementIfNeeded`, called with the chi
route context observed at call time; returns the new state and the
metric events emitted. -/
def incrementIfNeeded (req : Request) (rctx : RouteCtx) (s : WriterState) :
    WriterState × List MetricEvent :=
  if s.incrementDone then (s, [])
  else ({ s with incrementDone := true }, [⟨1, mkAttrs req rctx⟩])

/-- Model of `routeAwareWriter.ensureDecrement`, called once after the
downstream handler returns, with the chi route context observed at that
time.  Matches the source order: `decrementDone` is set first, then a
missing increment is performed, then the decrement is emitted with
freshly recomputed attributes. -/
def ensureDecrement (req : Request) (rctx : RouteCtx) (s : WriterState) :
    WriterState × List MetricEvent :=
  if s.decrementDone then (s, [])
  else
    let s1 := { s with decrementDone := true }
    let step :=
      if s1.incrementDone then (s1, [])
      else incrementIfNeeded req rctx s1
    (step.1, step.2 ++ [⟨-1, mkAttrs req rctx⟩])

/-- Handler behaviour as seen by the wrapper: the sequence of
`Write`/`WriteHeader` calls the handler performs, each tagged with the
chi route context observed when that write happens (both writer methods
first call `incrementIfNeeded`). -/
def runHandlerWrites (req : Request) (writes : List RouteCtx) (s : WriterState) :
    WriterState × List MetricEvent :=
  match writes with
  | [] => (s, [])
  | rctx :: rest =>
    let step := incrementIfNeeded req rctx s
    let restRun := runHandlerWrites req rest step.1
    (restRun.1, step.2 ++ restRun.2)

/-- Metric events emitted for one request by the wrapped handler of
`ActiveRequestsMiddleware` (instrument creation succeeded): the handler
writes run against a fresh `routeAwareWriter`, then `ensureDecrement`
runs with the chi route context observed after the handler returned. -/
def activeRequestsEvents (req : Request) (writes : List RouteCtx)
    (finalRctx : RouteCtx) : List MetricEvent :=
  let handlerRun := runHandlerWrites req writes WriterState.initial
  let finalRun := ensureDecrement req finalRctx handlerRun.1
  handlerRun.2 ++ finalRun.2

/-- Model of `ActiveRequestsMiddleware`: when `meter.Int64UpDownCounter`
fails, the middleware degrades to a pass-through that emits nothing;
otherwise each request produces `activeRequestsEvents`. -/
def ActiveRequestsMiddleware (instrumentCreated : Bool) (req : Request)
    (writes : List RouteCtx) (finalRctx : RouteCtx) : List MetricEvent :=
  if instrumentCreated then activeRequestsEvents req writes finalRctx else []

/-- Chi route context observed by the first `Add` call: the one at the
first handler write, or the post-handler one when the handler never
wrote. -/
def firstAddRctx (writes : List RouteCtx) (finalRctx : RouteCtx) : RouteCtx :=
  match writes with
  | [] => finalRctx
  | rctx :: _ => rctx

theorem runHandlerWrites_incremented (req : Request) (writes : List RouteCtx) :
    ∀ s : WriterState, s.incrementDone = true →
      runHandlerWrites req writes s = (s, []) := by
  induction writes with
  | nil => intro s _; rfl
  | cons rctx rest ih =>
    intro s hs
    simp [runHandlerWrites, incrementIfNeeded, hs, ih s hs]

theorem activeRequestsEvents_eq (req : Request) (writes : List RouteCtx)
    (finalRctx : RouteCtx) :
    activeRequestsEvents req writes finalRctx =
      [⟨1, mkAttrs req (firstAddRctx writes finalRctx)⟩,
       ⟨-1, mkAttrs req finalRctx⟩] := by
  cases writes with
  | nil => rfl
  | cons rctx rest =>
    have h := runHandlerWrites_incremented req rest
      ⟨true, false⟩ rfl
    simp [activeRequestsEvents, runHandlerWrites, incrementIfNeeded,
      WriterState.initial, h, ensureDecrement, firstAddRctx]

/-- C1: every request processed by the active-requests middleware (with a
successfully created instrument) emits exactly one increment and exactly
one decrement of the in-flight counter, for any number of handler writes;
in the zero-write case the increment happens in the finalization step
immediately before the decrement, with the same attribute set. -/
theorem active_requests_exactly_one_increment_decrement
    (req : Request) (writes : List RouteCtx) (finalRctx : RouteCtx) :
    ((ActiveRequestsMiddleware true req writes finalRctx).countP
        (fun e => e.delta == 1) = 1
     ∧ (ActiveRequestsMiddleware true req writes finalRctx).countP
        (fun e => e.delta == -1) = 1)
    ∧ ActiveRequestsMiddleware true req [] finalRctx =
        [⟨1, mkAttrs req finalRctx⟩, ⟨-1, mkAttrs req finalRctx⟩] := by
  refine ⟨⟨?_, ?_⟩, ?_⟩
  · simp [ActiveRequestsMiddleware, activeRequestsEvents_eq, List.countP_cons]
  · simp [ActiveRequestsMiddleware, activeRequestsEvents_eq, List.countP_cons]
  · simp [ActiveRequestsMiddleware, activeRequestsEvents_eq, firstAddRctx]

/-- C2 failing input: a request `GET /products/42` whose handler performs
its first write while the chi route context has not yet resolved a
pattern, while the pattern `/products/\x7bid\x7d` is resolved by the time
`ensureDecrement` runs.  The increment is emitted with route
`/products/42` and the decrement with route `/products/\x7bid\x7d`: the
two attribute sets differ, contradicting the claim (and the source's own
comment that the decrement attributes must match the increment attributes
exactly). -/
theorem active_requests_attrs_mismatch_on_late_route :
    activeRequestsEvents ⟨"GET", "/products/42", "api.example.com"⟩
        [none] (some "/products/{id}") =
      [⟨1, ⟨"GET", "/products/42", "api.example.com"⟩⟩,
       ⟨-1, ⟨"GET", "/products/{id}", "api.example.com"⟩⟩]
    ∧ (⟨"GET", "/products/42", "api.example.com"⟩ : Attrs) ≠
        ⟨"GET", "/products/{id}", "api.example.com"⟩ := by
  exact ⟨rfl, by decide⟩

/-! ## Domain entity and validation (internal/domain) -/

/-- Error values of `internal/domain`: `ErrInvalidProductName`,
`ErrInvalidProductPrice`, `ErrProductNotFound`. -/
inductive DomainError where
  | invalidProductName
  | invalidProductPrice
  | productNotFound
deriving DecidableEq, Repr

/-- Result of `err.Error()` on each domain error value. -/
def DomainError.message : DomainError → String
  | .invalidProductName => "product name is required"
  | .invalidProductPrice => "product price must be positive"
  | .productNotFound => "product not found"

/-- The `domain.Product` entity.  `createdAt` and `updatedAt` are the two
`time.Now()` readings taken by `NewProduct`; prices are rationals in
place of Go `float64`. -/
structure Product where
  id : String
  name : String
  description : String
  price : Rat
  createdAt : Nat
  updatedAt : Nat
deriving DecidableEq, Repr

/-- Model of `Product.Validate`: empty name, then non-positive price. -/
def Product.Validate (p : Product) : Option DomainError :=
  if p.name = "" then some DomainError.invalidProductName
  else if p.price ≤ 0 then some DomainError.invalidProductPrice
  else none

/-- Model of `domain.NewProduct`.  `genId` stands for
`uuid.New().String()` and `t1`, `t2` for the two successive `time.Now()`
calls that populate `CreatedAt` and `UpdatedAt`. -/
def NewProduct (genId : String) (t1 t2 : Nat) (name description : String)
    (price : Rat) : Except DomainError Product :=
  let product : Product := ⟨genId, name, description, price, t1, t2⟩
  match product.Validate with
  | some e => Except.error e
  | none => Except.ok product

/-! ## In-memory repository (internal/infrastructure/repository/memory)

Go stores `*domain.Product` pointers in a map.  The embedding keeps an
explicit heap (`List Product`, one cell per allocated product, addressed
by `Ref`) beside the map from identifiers to references, so that the
aliasing behaviour of `FindAll` snapshots is visible. -/

/-- A Go pointer to a heap-allocated product cell. -/
abbrev Ref := Nat

/-- Pointer dereference.  Go pointers handed to the repository are always
valid; out-of-range references (excluded by `RepoState.WF`) fall back to
a junk cell. -/
def derefP (heap : List Product) (r : Ref) : Product :=
  heap.getD r ⟨"", "", "", 0, 0, 0⟩

/-- Allocation of a product cell (`&Product` escaping to the heap):
appends the cell and returns its reference. -/
def allocProduct (heap : List Product) (p : Product) : List Product × Ref :=
  (heap ++ [p], heap.length)

/-- Go map assignment `m[k] = v` on an association list: replaces the
binding for `k` when present, otherwise appends it. -/
def mapInsert (k : String) (v : Ref) : List (String × Ref) → List (String × Ref)
  | [] => [(k, v)]
  | (k', v') :: rest =>
    if k' = k then (k, v) :: rest else (k', v') :: mapInsert k v rest

/-- Go map lookup `m[k]` on an association list. -/
def mapLookup (k : String) : List (String × Ref) → Option Ref
  | [] => none
  | (k', v) :: rest => if k' = k then some v else mapLookup k rest

/-- State of `memory.ProductRepository`: the `products` map from
identifier to product pointer, together with the heap the pointers point
into. -/
structure RepoState where
  heap : List Product
  products : List (String × Ref)
deriving DecidableEq, Repr

/-- The empty repository created by `NewProductRepository`. -/
def RepoState.empty : RepoState := ⟨[], []⟩

/-- Well-formedness: every stored pointer refers to an allocated cell. -/
def RepoState.WF (s : RepoState) : Prop :=
  ∀ b ∈ s.products, b.2 < s.heap.length

instance (s : RepoState) : Decidable s.WF := by
  unfold RepoState.WF; infer_instance

/-- Model of `ProductRepository.Create`: under the write lock it executes
`r.products[product.ID] = product` and returns `nil` — no duplicate
check of any kind.  The stored key is read through the given pointer. -/
def RepoState.create (s : RepoState) (ref : Ref) : RepoState × Option DomainError :=
  let p := derefP s.heap ref
  (⟨s.heap, mapInsert p.id ref s.products⟩, none)

/-- Model of `ProductRepository.FindByID`: map lookup, returning
`ErrProductNotFound` when the key is absent. -/
def RepoState.findByID (s : RepoState) (id : String) : Except DomainError Ref :=
  match mapLookup id s.products with
  | some ref => Except.ok ref
  | none => Except.error DomainError.productNotFound

/-- Model of `ProductRepository.FindAll`: a freshly allocated slice is
filled with the product pointers currently in the map (map iteration
order abstracted by the association-list order) and returned. -/
def RepoState.findAll (s : RepoState) : List Ref :=
  s.products.map (fun b => b.2)

/-! ## DTOs and use-case layer (internal/app/dto, internal/app/service) -/

/-- `dto.CreateProductRequest` (already JSON-decoded). -/
structure CreateProductRequest where
  name : String
  description : String
  price : Rat
deriving DecidableEq, Repr

/-- `dto.ProductResponse`. -/
structure ProductResponse where
  id : String
  name : String
  description : String
  price : Rat
  createdAt : Nat
  updatedAt : Nat
deriving DecidableEq, Repr

/-- `dto.ToProductResponse`: field-for-field copy of the product. -/
def ToProductResponse (p : Product) : ProductResponse :=
  ⟨p.id, p.name, p.description, p.price, p.createdAt, p.updatedAt⟩

/-- Model of `ProductService.CreateProduct`: build the domain entity via
`NewProduct` (validation); on success allocate the product cell (the
`*Product` handed to the repository) and store it with
`ProductRepository.Create`; on any error return it unchanged.  `genId`,
`t1`, `t2` are this call's identifier and clock readings. -/
def ProductService.CreateProduct (s : RepoState) (genId : String)
    (t1 t2 : Nat) (req : CreateProductRequest) :
    Except DomainError ProductResponse × RepoState :=
  match NewProduct genId t1 t2 req.name req.description req.price with
  | Except.error e => (Except.error e, s)
  | Except.ok product =>
    let allocated := allocProduct s.heap product
    let afterAlloc : RepoState := ⟨allocated.1, s.products⟩
    let created := RepoState.create afterAlloc allocated.2
    match created.2 with
    | some e => (Except.error e, created.1)
    | none => (Except.ok (ToProductResponse product), created.1)

/-- Model of `ProductService.GetProductByID`: one `FindByID` call, the
original error propagated unchanged, the found product converted. -/
def ProductService.GetProductByID (s : RepoState) (id : String) :
    Except DomainError ProductResponse :=
  match s.findByID id with
  | Except.error e => Except.error e
  | Except.ok ref => Except.ok (ToProductResponse (derefP s.heap ref))

/-- Model of `ProductService.ListProducts`: one `FindAll` call (which
never fails) converted via `ToProductResponseList`. -/
def ProductService.ListProducts (s : RepoState) : List ProductResponse :=
  (s.findAll).map (fun r => ToProductResponse (derefP s.heap r))

/-! ## HTTP response rendering (internal/infrastructure/http/response,
handler) -/

/-- `response.ErrorResponse`: the two-field structured error body. -/
structure ErrorResponse where
  error : String
  message : String
deriving DecidableEq, Repr

/-- JSON-encoded body of a response, by shape. -/
inductive ResponseBody where
  | product (p : ProductResponse)
  | products (l : List ProductResponse)
  | errorBody (e : ErrorResponse)
deriving DecidableEq, Repr

/-- An HTTP response as produced by `response.JSON`. -/
structure HttpResponse where
  status : Nat
  body : ResponseBody
deriving DecidableEq, Repr

/-- Category label chosen by `response.Error` from the status code
(`switch status` with default `"error"`). -/
def errorTypeOf (status : Nat) : String :=
  if status = 404 then "not_found"
  else if status = 400 then "bad_request"
  else if status = 500 then "internal_server_error"
  else "error"

/-- Model of `response.Error`: a body holding the category label and the
result of `err.Error()`. -/
def responseError (status : Nat) (errMessage : String) : HttpResponse :=
  ⟨status, ResponseBody.errorBody ⟨errorTypeOf status, errMessage⟩⟩

/-- Model of `ProductHandler.CreateProduct` after a successful JSON
decode: validation errors map to 400, other service errors to 500,
success to 201 with the product body. -/
def handlerCreateProduct (s : RepoState) (genId : String) (t1 t2 : Nat)
    (req : CreateProductRequest) : HttpResponse × RepoState :=
  let call := ProductService.CreateProduct s genId t1 t2 req
  match call.1 with
  | Except.error e =>
    match e with
    | DomainError.invalidProductName => (responseError 400 e.message, call.2)
    | DomainError.invalidProductPrice => (responseError 400 e.message, call.2)
    | _ => (responseError 500 e.message, call.2)
  | Except.ok resp => (⟨201, ResponseBody.product resp⟩, call.2)

/-- Model of `ProductHandler.GetProduct`: `ErrProductNotFound` maps to
404, other errors to 500, success to 200. -/
def handlerGetProduct (s : RepoState) (id : String) : HttpResponse :=
  match ProductService.GetProductByID s id with
  | Except.error DomainError.productNotFound =>
    responseError 404 DomainError.productNotFound.message
  | Except.error e => responseError 500 e.message
  | Except.ok resp => ⟨200, ResponseBody.product resp⟩

/-- Model of `ProductHandler.ListProducts` (`FindAll` never fails, so the
500 branch of the Go handler is dead code). -/
def handlerListProducts (s : RepoState) : HttpResponse :=
  ⟨200, ResponseBody.products (ProductService.ListProducts s)⟩

/-! ## Repository and use-case theorems (C3, C4, C5, C6) -/

theorem mapLookup_mapInsert_self (k : String) (v : Ref) :
    ∀ l : List (String × Ref), mapLookup k (mapInsert k v l) = some v := by
  intro l
  induction l with
  | nil => simp [mapInsert, mapLookup]
  | cons b rest ih =>
    by_cases h : b.1 = k
    · simp [mapInsert, mapLookup, h]
    · simp [mapInsert, mapLookup, h, ih]

theorem mapLookup_mapInsert_ne (k k2 : String) (v : Ref) (h : k2 ≠ k) :
    ∀ l : List (String × Ref), mapLookup k2 (mapInsert k v l) = mapLookup k2 l := by
  intro l
  have h' : ¬ k = k2 := fun he => h he.symm
  induction l with
  | nil => simp [mapInsert, mapLookup, h']
  | cons b rest ih =>
    by_cases hb : b.1 = k
    · simp [mapInsert, mapLookup, hb, h']
    · simp [mapInsert, mapLookup, hb, ih]

/-- Record stored ahead of a duplicate-key `Create` in the C3
counterexample. -/
def productFirst : Product := ⟨"a", "first", "", 1, 0, 0⟩

/-- Freshly allocated record with the same identifier `"a"`. -/
def productSecond : Product := ⟨"a", "second", "", 2, 0, 0⟩

/-- Repository state where identifier `"a"` is already stored (cell 0)
and `productSecond` (cell 1) is allocated but not yet stored. -/
def repoWithDuplicate : RepoState := ⟨[productFirst, productSecond], [("a", 0)]⟩

/-- C3 counterexample: `Create` on a record whose identifier `"a"` is
already stored returns no error (so it does not fail with a
duplicate-key error) and rebinds `"a"` to the new record, which
subsequent reads observe in place of the old one. -/
theorem repo_create_duplicate_overwrites :
    (repoWithDuplicate.create 1).2 = none
    ∧ (repoWithDuplicate.create 1).1.findByID "a" = Except.ok 1
    ∧ derefP (repoWithDuplicate.create 1).1.heap 1 = productSecond
    ∧ productSecond ≠ productFirst := by
  refine ⟨rfl, rfl, rfl, by decide⟩

/-- C3 amended: `ProductRepository.Create` never fails.  It returns no
error, leaves the heap unchanged, binds the record's identifier to the
given record (overwriting any existing binding, which subsequent
`FindByID` reads observe), and leaves every other identifier's binding
unchanged. -/
theorem repo_create_always_succeeds (s : RepoState) (ref : Ref) :
    (s.create ref).2 = none
    ∧ (s.create ref).1.heap = s.heap
    ∧ (s.create ref).1.findByID (derefP s.heap ref).id = Except.ok ref
    ∧ ∀ id2, id2 ≠ (derefP s.heap ref).id →
        (s.create ref).1.findByID id2 = s.findByID id2 := by
  refine ⟨rfl, rfl, ?_, ?_⟩
  · simp [RepoState.create, RepoState.findByID, mapLookup_mapInsert_self]
  · intro id2 h
    simp [RepoState.create, RepoState.findByID, mapLookup_mapInsert_ne _ _ _ h]

/-- Witness for the amended C3 theorem at a concrete duplicate-key
state. -/
theorem repo_create_always_succeeds_witness :
    ("b" ≠ (derefP repoWithDuplicate.heap 1).id)
    ∧ (repoWithDuplicate.create 1).1.findByID "b" =
        repoWithDuplicate.findByID "b" := by
  exact ⟨by decide,
    (repo_create_always_succeeds repoWithDuplicate 1).2.2.2 "b" (by decide)⟩

/-- C4: a create request with an empty name or non-positive price makes
the use case return the corresponding validation error and leaves the
repository state (heap and map) completely unchanged. -/
theorem create_validation_error_store_unchanged
    (s : RepoState) (genId : String) (t1 t2 : Nat) (req : CreateProductRequest)
    (h : req.name = "" ∨ req.price ≤ 0) :
    ((ProductService.CreateProduct s genId t1 t2 req).1 =
        Except.error DomainError.invalidProductName
     ∨ (ProductService.CreateProduct s genId t1 t2 req).1 =
        Except.error DomainError.invalidProductPrice)
    ∧ (ProductService.CreateProduct s genId t1 t2 req).2 = s := by
  by_cases hn : req.name = ""
  · constructor
    · left
      simp [ProductService.CreateProduct, NewProduct, Product.Validate, hn]
    · simp [ProductService.CreateProduct, NewProduct, Product.Validate, hn]
  · have hp : req.price ≤ 0 := h.resolve_left hn
    constructor
    · right
      simp [ProductService.CreateProduct, NewProduct, Product.Validate, hn, hp]
    · simp [ProductService.CreateProduct, NewProduct, Product.Validate, hn, hp]

/-- Witness for C4 at the spec's scenario `price: -1`. -/
theorem create_validation_error_store_unchanged_witness :
    ((⟨"Widget", "", -1⟩ : CreateProductRequest).name = ""
     ∨ (⟨"Widget", "", -1⟩ : CreateProductRequest).price ≤ 0)
    ∧ (ProductService.CreateProduct RepoState.empty "gen-9" 3 4
        ⟨"Widget", "", -1⟩).2 = RepoState.empty := by
  exact ⟨Or.inr (by norm_num),
    (create_validation_error_store_unchanged RepoState.empty "gen-9" 3 4
      ⟨"Widget", "", -1⟩ (Or.inr (by norm_num))).2⟩

/-- C5: for every well-formed repository state, `FindAll` returns a
snapshot holding exactly the records currently in the store (one entry
per map binding, each binding's record in the snapshot and nothing
else), and the snapshot is insulated from later writes: after any
subsequent `CreateProduct`, dereferencing the snapshot still yields the
records it held when taken. -/
theorem findAll_snapshot_exact_and_immutable (s : RepoState) (hWF : s.WF) :
    (s.findAll.length = s.products.length
     ∧ (∀ b ∈ s.products, derefP s.heap b.2 ∈ (s.findAll).map (derefP s.heap))
     ∧ (∀ r ∈ s.findAll, ∃ b ∈ s.products, b.2 = r))
    ∧ ∀ (genId : String) (t1 t2 : Nat) (req : CreateProductRequest),
        ∀ r ∈ s.findAll,
          derefP ((ProductService.CreateProduct s genId t1 t2 req).2).heap r =
            derefP s.heap r := by
  refine ⟨⟨by simp [RepoState.findAll], ?_, ?_⟩, ?_⟩
  · intro b hb
    exact List.mem_map_of_mem _ (List.mem_map_of_mem _ hb)
  · intro r hr
    obtain ⟨b, hb, hbr⟩ := List.mem_map.mp hr
    exact ⟨b, hb, hbr⟩
  · intro genId t1 t2 req r hr
    obtain ⟨b, hb, hbr⟩ := List.mem_map.mp hr
    have hlt : r < s.heap.length := hbr ▸ hWF b hb
    cases hval : NewProduct genId t1 t2 req.name req.description req.price with
    | error e => simp [ProductService.CreateProduct, hval]
    | ok product =>
      simp only [ProductService.CreateProduct, hval, RepoState.create,
        allocProduct, derefP]
      exact List.getD_append _ _ _ _ hlt

/-- Store used in the C5 witness: one record `"w"` at heap cell 0. -/
def repoSingleton : RepoState := ⟨[⟨"w", "Widget", "", 2, 7, 7⟩], [("w", 0)]⟩

/-- Witness for C5 at a concrete well-formed store and a concrete
subsequent create. -/
theorem findAll_snapshot_witness :
    RepoState.WF repoSingleton
    ∧ derefP ((ProductService.CreateProduct repoSingleton "gen-2" 8 9
        ⟨"Laptop", "A laptop", 1299.99⟩).2).heap 0 =
      derefP repoSingleton.heap 0 := by
  exact ⟨by decide,
    (findAll_snapshot_exact_and_immutable repoSingleton (by decide)).2
      "gen-2" 8 9 ⟨"Laptop", "A laptop", 1299.99⟩ 0 (by decide)⟩

/-- Spec scenario request `\x7bname: "Laptop", price: 1299.99\x7d`. -/
def reqLaptop : CreateProductRequest := ⟨"Laptop", "A laptop", 1299.99⟩

/-- Response produced for `reqLaptop` when the identifier generator
yields `"gen-1"` and the two `time.Now()` readings are 0 and 1. -/
def respLaptop : ProductResponse := ⟨"gen-1", "Laptop", "A laptop", 1299.99, 0, 1⟩

/-- C6 counterexample: a successful create whose two `time.Now()`
readings differ (0 then 1) yields a response whose created-at does not
equal its updated-at, because `NewProduct` reads the clock separately
for each field. -/
theorem create_success_created_ne_updated :
    (ProductService.CreateProduct RepoState.empty "gen-1" 0 1 reqLaptop).1 =
      Except.ok respLaptop
    ∧ respLaptop.createdAt ≠ respLaptop.updatedAt := by
  refine ⟨?_, by decide⟩
  have hn : ¬ ("Laptop" : String) = "" := by decide
  simp only [ProductService.CreateProduct, NewProduct, Product.Validate,
    reqLaptop, respLaptop, ToProductResponse, RepoState.create,
    RepoState.empty, allocProduct, derefP, mapInsert]
  rw [if_neg hn]
  norm_num

/-- C6 amended: every successful create returns a response carrying the
identifier generated for the call, echoing the input name, description
and price, with created-at equal to the first clock reading and
updated-at equal to the second — so created-at equals updated-at exactly
when the two `time.Now()` readings coincide. -/
theorem create_success_response_fields
    (s : RepoState) (genId : String) (t1 t2 : Nat) (req : CreateProductRequest)
    (h1 : req.name ≠ "") (h2 : 0 < req.price) :
    (ProductService.CreateProduct s genId t1 t2 req).1 =
      Except.ok ⟨genId, req.name, req.description, req.price, t1, t2⟩ := by
  have hp : ¬ req.price ≤ 0 := not_le.mpr h2
  simp [ProductService.CreateProduct, NewProduct, Product.Validate, h1, hp,
    ToProductResponse, RepoState.create]

/-- Witness for the amended C6 theorem: the spec's Laptop scenario with
coinciding clock readings, where created-at then equals updated-at. -/
theorem create_success_response_fields_witness :
    (reqLaptop.name ≠ "" ∧ (0 : Rat) < reqLaptop.price)
    ∧ (ProductService.CreateProduct RepoState.empty "gen-1" 5 5 reqLaptop).1 =
        Except.ok ⟨"gen-1", "Laptop", "A laptop", 1299.99, 5, 5⟩ := by
  exact ⟨⟨by decide, by norm_num [reqLaptop]⟩,
    create_success_response_fields RepoState.empty "gen-1" 5 5 reqLaptop
      (by decide) (by norm_num [reqLaptop])⟩

/-! ## Error rendering theorems (C7) -/

/-- C7 counterexample: an internal (500) error rendered by
`response.Error` carries, beyond the generic `internal_server_error`
category label, the underlying error's own message — internal details
are not suppressed. -/
theorem internal_error_message_leaked :
    responseError 500 "connection refused" =
      ⟨500, ResponseBody.errorBody ⟨"internal_server_error", "connection refused"⟩⟩
    ∧ "connection refused" ≠ "" := by
  exact ⟨rfl, by decide⟩

/-- C7 amended: every client-facing error yields a structured two-part
body whose category label is derived from the status code (`not_found`,
`bad_request`, `internal_server_error`, default `error`) and whose
message is the underlying error's text — included even for 500-class
errors.  The not-found handler path is shown concretely. -/
theorem error_body_structured
    (status : Nat) (msg : String) (s : RepoState) (id : String)
    (h : mapLookup id s.products = none) :
    responseError status msg =
      ⟨status, ResponseBody.errorBody ⟨errorTypeOf status, msg⟩⟩
    ∧ errorTypeOf 404 = "not_found"
    ∧ errorTypeOf 400 = "bad_request"
    ∧ errorTypeOf 500 = "internal_server_error"
    ∧ handlerGetProduct s id =
        ⟨404, ResponseBody.errorBody ⟨"not_found", "product not found"⟩⟩ := by
  refine ⟨rfl, rfl, rfl, rfl, ?_⟩
  simp [handlerGetProduct, ProductService.GetProductByID, RepoState.findByID,
    h, responseError, errorTypeOf, DomainError.message]

/-- Witness for the amended C7 theorem at an unknown identifier. -/
theorem error_body_structured_witness :
    mapLookup "nope" RepoState.empty.products = none
    ∧ handlerGetProduct RepoState.empty "nope" =
        ⟨404, ResponseBody.errorBody ⟨"not_found", "product not found"⟩⟩ := by
  exact ⟨rfl,
    (error_body_structured 500 "x" RepoState.empty "nope" rfl).2.2.2.2⟩

/-! ## Trace-correlated logger (telemetry logger.go, part of part_002) -/

/-- Result of `span.SpanContext()` for the span found in a context:
`valid` models `IsValid()`, the identifiers model `TraceID().String()`
and `SpanID().String()`. -/
structure SpanContext where
  valid : Bool
  traceId : String
  spanId : String
deriving DecidableEq, Repr

/-- Ambient context as the log handler sees it: the span returned by
`trace.SpanFromContext` and the optional `httpRouteKey` context value. -/
structure LogContext where
  span : SpanContext
  httpRoute : Option String
deriving DecidableEq, Repr

/-- Model of `telemetry.WithHTTPRoute`. -/
def WithHTTPRoute (ctx : LogContext) (route : String) : LogContext :=
  { ctx with httpRoute := some route }

/-- Model of `telemetry.HTTPRouteFromContext`: the stored string, or `""`
when the context value is absent. -/
def HTTPRouteFromContext (ctx : LogContext) : String :=
  ctx.httpRoute.getD ""

/-- An slog record: the call site's message and attribute list. -/
structure LogRecord where
  message : String
  attrs : List (String × String)
deriving DecidableEq, Repr

/-- Model of `slog.Record.AddAttrs`: appends attributes, leaving the
existing ones in place. -/
def LogRecord.AddAttrs (r : LogRecord) (added : List (String × String)) :
    LogRecord :=
  { r with attrs := r.attrs ++ added }

/-- Model of `traceContextHandler.Handle`: the record as forwarded to the
wrapped handler — trace attributes appended when the span context is
valid, the route attribute appended when the context route is
non-empty. -/
def traceContextHandler.Handle (ctx : LogContext) (r : LogRecord) : LogRecord :=
  let r1 :=
    if ctx.span.valid then
      r.AddAttrs [("trace_id", ctx.span.traceId), ("span_id", ctx.span.spanId)]
    else r
  if HTTPRouteFromContext ctx ≠ "" then
    r1.AddAttrs [("http.route", HTTPRouteFromContext ctx)]
  else r1

/-- C9: a record passing through the trace-correlated log handler gains
`trace_id`/`span_id` fields when the ambient span context is valid and
the `http.route` field when the context route is non-empty; with neither
present the record is forwarded completely unchanged; in every case the
message and the call site's own attributes are preserved (the original
attribute list stays as a prefix). -/
theorem trace_context_handler_enrichment (ctx : LogContext) (r : LogRecord) :
    (ctx.span.valid = true →
       ("trace_id", ctx.span.traceId) ∈ (traceContextHandler.Handle ctx r).attrs
       ∧ ("span_id", ctx.span.spanId) ∈ (traceContextHandler.Handle ctx r).attrs)
    ∧ (HTTPRouteFromContext ctx ≠ "" →
       ("http.route", HTTPRouteFromContext ctx) ∈
         (traceContextHandler.Handle ctx r).attrs)
    ∧ (ctx.span.valid = false → HTTPRouteFromContext ctx = "" →
       traceContextHandler.Handle ctx r = r)
    ∧ (traceContextHandler.Handle ctx r).message = r.message
    ∧ ∃ added, (traceContextHandler.Handle ctx r).attrs = r.attrs ++ added := by
  by_cases hv : ctx.span.valid
  · by_cases hr : HTTPRouteFromContext ctx = ""
    · refine ⟨fun _ => ⟨?_, ?_⟩, fun h => absurd hr h, fun hf => absurd hv (by simp [hf]), ?_, ?_⟩ <;>
        simp [traceContextHandler.Handle, LogRecord.AddAttrs, hv, hr]
    · refine ⟨fun _ => ⟨?_, ?_⟩, fun _ => ?_, fun hf => absurd hv (by simp [hf]), ?_, ?_⟩ <;>
        simp [traceContextHandler.Handle, LogRecord.AddAttrs, hv, hr]
  · have hv' : ctx.span.valid = false := by simpa using hv
    by_cases hr : HTTPRouteFromContext ctx = ""
    · refine ⟨fun h => absurd h (by simp [hv']), fun h => absurd hr h, fun _ _ => ?_, ?_, ?_⟩
      · simp [traceContextHandler.Handle, hv', hr]
      · simp [traceContextHandler.Handle, hv', hr]
      · exact ⟨[], by simp [traceContextHandler.Handle, hv', hr]⟩
    · refine ⟨fun h => absurd h (by simp [hv']), fun _ => ?_, fun _ hc => absurd hc hr, ?_, ?_⟩ <;>
        simp [traceContextHandler.Handle, LogRecord.AddAttrs, hv', hr]

/-- Witness for C9 at a concrete valid span context with a resolved
route and a startup-style record without either. -/
theorem trace_context_handler_enrichment_witness :
    ((⟨⟨true, "t-1", "s-1"⟩, some "/products"⟩ : LogContext).span.valid = true
     ∧ ("trace_id", "t-1") ∈
        (traceContextHandler.Handle ⟨⟨true, "t-1", "s-1"⟩, some "/products"⟩
          ⟨"Creating product", [("name", "Laptop")]⟩).attrs)
    ∧ traceContextHandler.Handle ⟨⟨false, "", ""⟩, none⟩
        ⟨"Starting Products API", []⟩ = ⟨"Starting Products API", []⟩ := by
  refine ⟨⟨rfl, ?_⟩, ?_⟩
  · exact ((trace_context_handler_enrichment
      ⟨⟨true, "t-1", "s-1"⟩, some "/products"⟩
      ⟨"Creating product", [("name", "Laptop")]⟩).1 rfl).1
  · exact (trace_context_handler_enrichment ⟨⟨false, "", ""⟩, none⟩
      ⟨"Starting Products API", []⟩).2.2.1 rfl rfl

/-! ## Configuration (internal/infrastructure/config) -/

/-- Model of `config.getEnvBool`: `value` is the `os.Getenv` result
(`""` for unset or empty); a non-empty value is accepted exactly when it
is one of the three literal strings. -/
def getEnvBool (value : String) (defaultValue : Bool) : Bool :=
  if value ≠ "" then (value == "true" || value == "1" || value == "yes")
  else defaultValue

/-- The `OTLP.Enabled` field of `LoadConfig`:
`getEnvBool("OTEL_ENABLED", true)`. -/
def loadOtelEnabled (envValue : String) : Bool :=
  getEnvBool envValue true

/-- C10: `OTEL_ENABLED` defaults to true when unset or empty; a non-empty
value enables telemetry exactly when it is the literal string `true`,
`1` or `yes`, case-sensitively — so `TRUE`, `True` and `on` all disable
export. -/
theorem otel_enabled_parsing :
    loadOtelEnabled "" = true
    ∧ (∀ v : String, v ≠ "" →
        (loadOtelEnabled v = true ↔ (v = "true" ∨ v = "1" ∨ v = "yes")))
    ∧ loadOtelEnabled "TRUE" = false
    ∧ loadOtelEnabled "True" = false
    ∧ loadOtelEnabled "on" = false := by
  refine ⟨rfl, ?_, by decide, by decide, by decide⟩
  intro v hv
  simp [loadOtelEnabled, getEnvBool, hv, or_assoc]

/-- Witness for C10 at the non-empty accepted value `yes`. -/
theorem otel_enabled_parsing_witness :
    ("yes" : String) ≠ "" ∧ loadOtelEnabled "yes" = true := by
  exact ⟨by decide,
    (otel_enabled_parsing.2.1 "yes" (by decide)).mpr (Or.inr (Or.inr rfl))⟩

/-! ## Telemetry lifecycle and whole-app runs (C8)

`main.go` chooses between `NewTelemetry` (OTLP exporters attached) and
`NewNoOpTelemetry` (providers without exporters) once at startup; the
request path records spans and metrics through the provider interface
either way and never consults the flag. -/

/-- One span or metric recording made while serving a request. -/
inductive TelemetryEvent where
  | span (name : String)
  | metricAdd (instrument : String) (tags : List (String × String))
deriving DecidableEq, Repr

/-- The telemetry provider as the rest of the program sees it; the only
behavioural difference between the two constructors is whether recorded
data crosses the process boundary. -/
structure TelemetryProvider where
  exportEnabled : Bool
deriving DecidableEq, Repr

/-- Model of `telemetry.NewTelemetry`: providers with OTLP exporters. -/
def NewTelemetry : TelemetryProvider := ⟨true⟩

/-- Model of `telemetry.NewNoOpTelemetry`: providers without exporters —
spans and counters are still created and populated but never leave the
process. -/
def NewNoOpTelemetry : TelemetryProvider := ⟨false⟩

/-- Provider selection in `main`: `if cfg.OTLP.Enabled`. -/
def mainTelemetry (enabled : Bool) : TelemetryProvider :=
  if enabled then NewTelemetry else NewNoOpTelemetry

/-- Events that actually cross the process boundary: everything when
exporters are attached, nothing in no-op mode. -/
def TelemetryProvider.exportBatch (tp : TelemetryProvider)
    (events : List TelemetryEvent) : List TelemetryEvent :=
  if tp.exportEnabled then events else []

/-- One HTTP API request, bundling the per-request nondeterminism
(generated identifier, the two clock readings). -/
inductive ApiOp where
  | createProduct (genId : String) (t1 t2 : Nat) (req : CreateProductRequest)
  | getProduct (id : String)
  | listProducts
deriving DecidableEq, Repr

/-- Response and store produced by dispatching one request to its
handler — note no telemetry argument: the Go handlers never see the
export flag. -/
def opResult (op : ApiOp) (s : RepoState) : HttpResponse × RepoState :=
  match op with
  | .createProduct genId t1 t2 req => handlerCreateProduct s genId t1 t2 req
  | .getProduct id => (handlerGetProduct s id, s)
  | .listProducts => (handlerListProducts s, s)

/-- Spans and outcome counters recorded while serving one request,
mirroring the service layer's per-path instrumentation; recording is
unconditional in both telemetry modes. -/
def requestEvents (op : ApiOp) (s : RepoState) : List TelemetryEvent :=
  match op with
  | .createProduct genId t1 t2 req =>
    match (ProductService.CreateProduct s genId t1 t2 req).1 with
    | Except.error _ =>
      [.span "ProductService.CreateProduct",
       .metricAdd "products.operations"
         [("operation", "create"), ("result", "failure")]]
    | Except.ok _ =>
      [.span "ProductService.CreateProduct", .span "ProductRepository.Create",
       .metricAdd "products.created.total" [],
       .metricAdd "products.operations"
         [("operation", "create"), ("result", "success")]]
  | .getProduct id =>
    match ProductService.GetProductByID s id with
    | Except.error _ =>
      [.span "ProductService.GetProductByID",
       .span "ProductRepository.FindByID",
       .metricAdd "products.operations"
         [("operation", "read"), ("result", "not_found")]]
    | Except.ok _ =>
      [.span "ProductService.GetProductByID",
       .span "ProductRepository.FindByID",
       .metricAdd "products.operations"
         [("operation", "read"), ("result", "success")]]
  | .listProducts =>
    [.span "ProductService.ListProducts", .span "ProductRepository.FindAll",
     .metricAdd "products.operations"
       [("operation", "list"), ("result", "success")]]

/-- A whole run of the service: each request is dispatched against the
current store, its telemetry is recorded and handed to the provider for
export; returns all responses, the final store, and the events that
crossed the process boundary. -/
def runApp (tp : TelemetryProvider) (ops : List ApiOp) (s : RepoState) :
    List HttpResponse × RepoState × List TelemetryEvent :=
  match ops with
  | [] => ([], s, [])
  | op :: rest =>
    let events := requestEvents op s
    let step := opResult op s
    let restRun := runApp tp rest step.2
    (step.1 :: restRun.1, restRun.2.1, tp.exportBatch events ++ restRun.2.2)

/-- C8: running any sequence of operations with telemetry export
disabled produces exactly the HTTP responses and final store of the
enabled run, and exports nothing — the two configurations differ only in
the exported events. -/
theorem telemetry_disabled_same_behavior (ops : List ApiOp) (s : RepoState) :
    (runApp (mainTelemetry false) ops s).1 = (runApp (mainTelemetry true) ops s).1
    ∧ (runApp (mainTelemetry false) ops s).2.1 =
        (runApp (mainTelemetry true) ops s).2.1
    ∧ (runApp (mainTelemetry false) ops s).2.2 = [] := by
  induction ops generalizing s with
  | nil => exact ⟨rfl, rfl, rfl⟩
  | cons op rest ih =>
    obtain ⟨h1, h2, h3⟩ := ih (opResult op s).2
    simp [mainTelemetry, NewTelemetry, NewNoOpTelemetry] at h1 h2 h3
    refine ⟨?_, ?_, ?_⟩ <;>
      simp [runApp, mainTelemetry, NewTelemetry, NewNoOpTelemetry,
        TelemetryProvider.exportBatch, h1, h2, h3]
